import Mathlib

/-!
Shallow embedding of the `EditableText` component
(`apps/web/src/components/editor/editable-text.tsx`): the drag/coordinate
math of `handleMouseDown`/`handleMouseMove`/`handleMouseUp`, the inline-edit
handlers `handleDoubleClick`/`handleTextChange`/`handleTextSave`/
`handleKeyDown`, and the GSAP animation entry point `playAnimation`.

Pixel and logical coordinates are JavaScript numbers in the source; they are
modelled as rationals (ℚ).  The component's React `useState` fields become a
record `ComponentState`; DOM events become an `Event` type; calls to the
external collaborators (`updateTextElement` on the timeline store and the
`onPositionUpdate` callback) become an explicit `Effect` list returned by the
step function.  Conditional rendering is modelled by guards: textarea events
(`textChange`, key presses, `blur`) can only be delivered while `isEditing`
is true (the textarea exists only then), and the GSAP target `gsapRef.current`
is non-null exactly when the component is mounted and not editing.
Document-level listeners installed by `handleMouseDown` survive unmount
(the source has no cleanup effect for them), so `mouseMove`/`mouseUp`
delivery is not guarded on `mounted`.
-/

namespace EditableText

/-- A 2D point/vector of JavaScript numbers, modelled over ℚ. -/
structure Vec2 where
  x : ℚ
  y : ℚ
deriving Repr, DecidableEq

/-- A DOMRect as returned by `getBoundingClientRect()`. -/
structure Rect where
  left : ℚ
  top : ℚ
  width : ℚ
  height : ℚ
deriving Repr, DecidableEq

/-- `canvasSize` prop: logical canvas dimensions. -/
structure CanvasSize where
  width : ℚ
  height : ℚ
deriving Repr, DecidableEq

/-- The props this embedding needs: `track.id`, `element.id`, `canvasSize`.
`element.content` is passed separately since it tracks the external store. -/
structure Config where
  trackId : String
  elementId : String
  canvasSize : CanvasSize
deriving Repr, DecidableEq

/-- Calls made to external collaborators. -/
inductive Effect where
  /-- `updateTextElement(track.id, element.id, \x7b content \x7d)`. -/
  | updateTextElement (trackId : String) (elementId : String) (content : String)
  /-- `onPositionUpdate(constrainedX, constrainedY)`. -/
  | positionUpdate (x : ℚ) (y : ℚ)
deriving Repr, DecidableEq

/-- GSAP tween vars object; only the properties used by this component.
`rep` models the source's `repeat` field. -/
structure Vars where
  opacity : Option ℚ := none
  scale : Option ℚ := none
  x : Option ℚ := none
  y : Option ℚ := none
  duration : Option ℚ := none
  ease : Option String := none
  textShadow : Option String := none
  yoyo : Option Bool := none
  rep : Option Int := none
deriving Repr, DecidableEq

/-- Target of a tween: the `gsapRef` container div, or the i-th per-character
span created by the typewriter case. -/
inductive TweenTarget where
  | container
  | span (i : ℕ)
deriving Repr, DecidableEq

/-- One call on the GSAP timeline `tl`.  `toAt` carries the optional explicit
position parameter (third argument of `tl.to`). -/
inductive TimelineOp where
  | fromTo (target : TweenTarget) (fromVars : Vars) (toVars : Vars)
  | toAt (target : TweenTarget) (vars : Vars) (position : Option ℚ)
deriving Repr, DecidableEq

/-- A per-character span created by the typewriter case:
`span.textContent = char; span.style.opacity = '0'`. -/
structure CharSpan where
  textContent : Char
  styleOpacity : ℚ
deriving Repr, DecidableEq

/-- The tween vars of one typewriter reveal:
`\x7b opacity: 1, duration: 0.05, ease: "none" \x7d`. -/
def twVars : Vars :=
  { opacity := some 1, duration := some (1/20), ease := some "none" }

/-- The typewriter loop `chars.forEach((char, i) => ... tl.to(span,
\x7b opacity: 1, duration: 0.05, ease: "none" \x7d, i * 0.05))`,
unfolded with explicit running index `i`. -/
def typewriterOps : ℕ → List Char → List TimelineOp
  | _, [] => []
  | i, _ :: cs =>
      .toAt (.span i) twVars (some ((i : ℚ) * (1/20)))
        :: typewriterOps (i + 1) cs

/-- The `switch (animation)` body of `playAnimation`: the spans appended to
the (cleared) container and the calls recorded on the timeline.  Unknown
names fall through the switch and build an empty timeline. -/
def buildTimeline (animation : String) (content : String) :
    List CharSpan × List TimelineOp :=
  match animation with
  | "fadeIn" =>
      ([], [.fromTo .container
        { opacity := some 0, scale := some 0.8 }
        { opacity := some 1, scale := some 1, duration := some 0.5,
          ease := some "back.out(1.7)" }])
  | "slideIn" =>
      ([], [.fromTo .container
        { x := some (-100), opacity := some 0 }
        { x := some 0, opacity := some 1, duration := some 0.5,
          ease := some "power2.out" }])
  | "bounce" =>
      ([], [.fromTo .container
        { y := some (-50), opacity := some 0 }
        { y := some 0, opacity := some 1, duration := some 0.6,
          ease := some "bounce.out" }])
  | "typewriter" =>
      (content.data.map (fun c => { textContent := c, styleOpacity := 0 }),
       typewriterOps 0 content.data)
  | "glow" =>
      ([], [.toAt .container
        { textShadow := some "0 0 20px #fff, 0 0 30px #fff, 0 0 40px #fff",
          duration := some 0.3, yoyo := some true, rep := some 1 }
        none])
  | _ => ([], [])

/-- A live GSAP timeline created by one `playAnimation` call. -/
structure Playback where
  animation : String
  spans : List CharSpan
  ops : List TimelineOp
deriving Repr, DecidableEq

/-- The component's mutable state: the `useState` fields of `EditableText`,
plus bookkeeping for the document-level listeners installed by
`handleMouseDown` (each entry is the `offset` captured by that gesture's
`handleMouseMove`/`handleMouseUp` closure pair), the live GSAP timelines,
and whether the component is still mounted. -/
structure ComponentState where
  isEditing : Bool
  isDragging : Bool
  dragOffset : Vec2
  editContent : String
  isAnimating : Bool
  playbacks : List Playback
  docListeners : List Vec2
  mounted : Bool
deriving Repr, DecidableEq

/-- Initial state for a freshly mounted component with stored content
`content` (`useState(element.content)` seeds `editContent`). -/
def initState (content : String) : ComponentState :=
  { isEditing := false
    isDragging := false
    dragOffset := { x := 0, y := 0 }
    editContent := content
    isAnimating := false
    playbacks := []
    docListeners := []
    mounted := true }

/-- Events delivered to the component.  `mouseDown` carries
`elementRef.current?.getBoundingClientRect()` (none when unavailable);
`mouseMove` carries the preview surface rect read at move time (none when
the surface is not mounted).  `keyEnter true` is Enter with the Shift
(newline) modifier held.  `unmount` is React teardown of the component.
`animationComplete` is the timeline's `onComplete` callback. -/
inductive Event where
  | doubleClick
  | mouseDown (pointer : Vec2) (elementRect : Option Rect)
  | mouseMove (pointer : Vec2) (previewRect : Option Rect)
  | mouseUp
  | textChange (value : String)
  | keyEnter (shift : Bool)
  | keyEscape
  | blur
  | triggerAnimation (animation : String)
  | animationComplete
  | unmount
deriving Repr, DecidableEq

/-- Body of one installed `handleMouseMove` closure (captured `offset`):
if the preview rect is unavailable, skip; otherwise compute the logical
position, clamp it to the canvas bounds, and call `onPositionUpdate`. -/
def handleMouseMove (cfg : Config) (pointer : Vec2) (previewRect : Option Rect)
    (offset : Vec2) : List Effect :=
  match previewRect with
  | none => []
  | some rect =>
      let newX := ((pointer.x - offset.x - rect.left) / rect.width - 0.5)
        * cfg.canvasSize.width
      let newY := ((pointer.y - offset.y - rect.top) / rect.height - 0.5)
        * cfg.canvasSize.height
      let constrainedX := max (-(cfg.canvasSize.width / 2))
        (min (cfg.canvasSize.width / 2) newX)
      let constrainedY := max (-(cfg.canvasSize.height / 2))
        (min (cfg.canvasSize.height / 2) newY)
      [.positionUpdate constrainedX constrainedY]

/-- `handleTextSave`: write the draft to the store, leave editing. -/
def handleTextSave (cfg : Config) (s : ComponentState) :
    ComponentState × List Effect :=
  ({ s with isEditing := false },
   [.updateTextElement cfg.trackId cfg.elementId s.editContent])

/-- One step of the component: deliver one event, returning the new state and
the external calls made.  `content` is the current stored
`element.content` prop. -/
def step (cfg : Config) (content : String) (s : ComponentState) :
    Event → ComponentState × List Effect
  | .doubleClick =>
      -- handleDoubleClick: setIsEditing(true); setEditContent(element.content)
      if s.mounted then
        ({ s with isEditing := true, editContent := content }, [])
      else (s, [])
  | .mouseDown pointer elementRect =>
      -- handleMouseDown: early return while editing; early return when the
      -- element rect is unavailable; otherwise capture the grab offset and
      -- install the document move/up listener pair.
      if !s.mounted || s.isEditing then (s, [])
      else
        match elementRect with
        | none => (s, [])
        | some r =>
            let offset : Vec2 :=
              { x := pointer.x - (r.left + r.width / 2),
                y := pointer.y - (r.top + r.height / 2) }
            ({ s with
                dragOffset := offset
                isDragging := true
                docListeners := s.docListeners ++ [offset] }, [])
  | .mouseMove pointer previewRect =>
      -- every installed document-level handleMouseMove closure fires,
      -- regardless of whether the component is still mounted
      (s, (s.docListeners.map (handleMouseMove cfg pointer previewRect)).flatten)
  | .mouseUp =>
      -- each installed handleMouseUp fires: setIsDragging(false) and
      -- removeEventListener for its move/up pair
      if s.docListeners.isEmpty then (s, [])
      else ({ s with isDragging := false, docListeners := [] }, [])
  | .textChange value =>
      -- handleTextChange, deliverable only while the textarea exists
      if s.mounted && s.isEditing then
        ({ s with editContent := value }, [])
      else (s, [])
  | .keyEnter shift =>
      -- handleKeyDown: plain Enter prevents default and saves; Shift+Enter
      -- matches no branch, so the textarea's unprevented default edit
      -- inserts a newline into the value and fires handleTextChange
      if !s.mounted || !s.isEditing then (s, [])
      else if shift then
        ({ s with editContent := s.editContent ++ "\n" }, [])
      else handleTextSave cfg s
  | .keyEscape =>
      -- handleKeyDown Escape branch: setEditContent(element.content);
      -- setIsEditing(false); no store call
      if s.mounted && s.isEditing then
        ({ s with editContent := content, isEditing := false }, [])
      else (s, [])
  | .blur =>
      -- textarea onBlur = handleTextSave, deliverable only while editing
      if s.mounted && s.isEditing then handleTextSave cfg s
      else (s, [])
  | .triggerAnimation animation =>
      -- playAnimation: `if (!gsapRef.current || isAnimating) return;`
      -- gsapRef.current exists iff mounted and not editing
      if !s.mounted || s.isEditing || s.isAnimating then (s, [])
      else
        let (spans, ops) := buildTimeline animation content
        ({ s with
            isAnimating := true
            playbacks := s.playbacks ++ [⟨animation, spans, ops⟩] }, [])
  | .animationComplete =>
      -- the timeline's onComplete: setIsAnimating(false); the finished
      -- timeline is done and drops out of the live set
      if s.playbacks.isEmpty then (s, [])
      else ({ s with isAnimating := false, playbacks := [] }, [])
  | .unmount =>
      -- React teardown: the component has no cleanup effect for the
      -- document listeners, so docListeners is left untouched
      ({ s with mounted := false }, [])

/-- The store plus one component instance: the store holds the persisted
`content` of this element and feeds the `element.content` prop. -/
structure SysState where
  store : String
  comp : ComponentState
deriving Repr, DecidableEq

/-- How the external store reacts to an effect. -/
def applyEffect (store : String) : Effect → String
  | .updateTextElement _ _ c => c
  | .positionUpdate _ _ => store

/-- One system step: the component sees the current store content as its
`element.content` prop, and its store-update effects are applied. -/
def sysStep (cfg : Config) (sys : SysState) (e : Event) :
    SysState × List Effect :=
  let (s, effs) := step cfg sys.store sys.comp e
  ({ store := effs.foldl applyEffect sys.store, comp := s }, effs)

/-- Run a list of events, accumulating all emitted effects in order. -/
def sysRun (cfg : Config) (sys : SysState) : List Event → SysState × List Effect
  | [] => (sys, [])
  | e :: es =>
      let (sys1, effs) := sysStep cfg sys e
      let (sys2, rest) := sysRun cfg sys1 es
      (sys2, effs ++ rest)

/-- Number of store writes in an effect list. -/
def storeWrites (effs : List Effect) : ℕ :=
  (effs.filter fun e =>
    match e with
    | .updateTextElement _ _ _ => true
    | _ => false).length

/-- Number of position updates in an effect list. -/
def posUpdates (effs : List Effect) : ℕ :=
  (effs.filter fun e =>
    match e with
    | .positionUpdate _ _ => true
    | _ => false).length

/-- End time of a timeline call with an absolute position parameter
(typewriter calls all have one). -/
def opEnd : TimelineOp → ℚ
  | .toAt _ v (some p) => p + v.duration.getD 0
  | .toAt _ v none => v.duration.getD 0
  | .fromTo _ _ v => v.duration.getD 0

/-- Total duration of an absolutely positioned timeline: the latest end time
of any call (0 for an empty timeline). -/
def absSeqDuration (ops : List TimelineOp) : ℚ :=
  ops.foldr (fun op acc => max (opEnd op) acc) 0

/-! Concrete fixtures used by witnesses and scenario conjuncts. -/

/-- A 1920×1080 canvas configuration. -/
def cfg0 : Config := ⟨"t1", "e1", ⟨1920, 1080⟩⟩

/-- A state with one drag gesture in progress, grab offset `(0, 0)`. -/
def dragState0 : ComponentState :=
  { initState "A" with isDragging := true, docListeners := [⟨0, 0⟩] }

/-- A state in editing mode with draft "AB" over stored content "A". -/
def editStateAB : ComponentState :=
  { initState "A" with isEditing := true, editContent := "AB" }

/-- A state with an animation currently running. -/
def busyState0 : ComponentState :=
  { initState "A" with
      isAnimating := true
      playbacks := [⟨"fadeIn", [], (buildTimeline "fadeIn" "A").2⟩] }

/-- Clamping with `max lo (min hi v)` lands in `[lo, hi]` whenever
`lo ≤ hi`. -/
lemma clamp_mem {lo hi v : ℚ} (h : lo ≤ hi) :
    lo ≤ max lo (min hi v) ∧ max lo (min hi v) ≤ hi :=
  ⟨le_max_left _ _, max_le h (min_le_left _ _)⟩

/-- Every effect emitted by a `mouseMove` step is a position update lying
within the canvas bounds. -/
lemma mouseMove_effects_bounded (cfg : Config) (content : String)
    (s : ComponentState) (pointer : Vec2) (previewRect : Option Rect)
    (hw : 0 ≤ cfg.canvasSize.width) (hh : 0 ≤ cfg.canvasSize.height) :
    ∀ e ∈ (step cfg content s (.mouseMove pointer previewRect)).2, ∀ x y,
      e = .positionUpdate x y →
        -(cfg.canvasSize.width / 2) ≤ x ∧ x ≤ cfg.canvasSize.width / 2 ∧
        -(cfg.canvasSize.height / 2) ≤ y ∧ y ≤ cfg.canvasSize.height / 2 := by
  intro e he x y hxy
  simp only [step, List.mem_flatten, List.mem_map] at he
  obtain ⟨l, ⟨off, _, hoff⟩, hel⟩ := he
  subst hoff
  unfold handleMouseMove at hel
  rcases previewRect with _ | rect
  · simp at hel
  · simp only [List.mem_singleton] at hel
    subst hel
    cases hxy
    have hw2 : -(cfg.canvasSize.width / 2) ≤ cfg.canvasSize.width / 2 := by
      linarith
    have hh2 : -(cfg.canvasSize.height / 2) ≤ cfg.canvasSize.height / 2 := by
      linarith
    exact ⟨(clamp_mem hw2).1, (clamp_mem hw2).2, (clamp_mem hh2).1,
      (clamp_mem hh2).2⟩

/-- C1: on a drag-move signal with an available reference rectangle, the
single installed move handler delivers to `onPositionUpdate` exactly the
logical coordinates `((pointer - grabOffset - rectOrigin)/rectExtent - 0.5)
* canvasExtent`, clamped componentwise to the canvas half-bounds; every
delivered position (for any pointer, offset, rectangle and nonnegative
canvas size) lies within those bounds; and in the documented example
(canvas 1920×1080, rect `(0,0,960,540)`, grab offset `(0,0)`, pointer
`(1000,0)`) the delivered X is exactly 960. -/
theorem drag_move_clamped_delivery (cfg : Config) (content : String)
    (s : ComponentState) (pointer offset : Vec2) (rect : Rect)
    (hl : s.docListeners = [offset])
    (hw : 0 ≤ cfg.canvasSize.width) (hh : 0 ≤ cfg.canvasSize.height) :
    (step cfg content s (.mouseMove pointer (some rect))).2
      = [.positionUpdate
          (max (-(cfg.canvasSize.width / 2)) (min (cfg.canvasSize.width / 2)
            (((pointer.x - offset.x - rect.left) / rect.width - 0.5)
              * cfg.canvasSize.width)))
          (max (-(cfg.canvasSize.height / 2)) (min (cfg.canvasSize.height / 2)
            (((pointer.y - offset.y - rect.top) / rect.height - 0.5)
              * cfg.canvasSize.height)))]
    ∧ (∀ e ∈ (step cfg content s (.mouseMove pointer (some rect))).2, ∀ x y,
        e = .positionUpdate x y →
          -(cfg.canvasSize.width / 2) ≤ x ∧ x ≤ cfg.canvasSize.width / 2 ∧
          -(cfg.canvasSize.height / 2) ≤ y ∧ y ≤ cfg.canvasSize.height / 2)
    ∧ handleMouseMove cfg0 ⟨1000, 0⟩ (some ⟨0, 0, 960, 540⟩) ⟨0, 0⟩
        = [.positionUpdate 960 (-540)] := by
  refine ⟨?_, mouseMove_effects_bounded cfg content s pointer (some rect) hw hh,
    ?_⟩
  · simp [step, hl, handleMouseMove]
  · norm_num [cfg0, handleMouseMove, min_def, max_def]

/-- Witness for `drag_move_clamped_delivery` at the documented example. -/
theorem drag_move_clamped_delivery_witness :
    handleMouseMove cfg0 ⟨1000, 0⟩ (some ⟨0, 0, 960, 540⟩) ⟨0, 0⟩
      = [.positionUpdate 960 (-540)] :=
  (drag_move_clamped_delivery cfg0 "A" dragState0 ⟨1000, 0⟩ ⟨0, 0⟩
    ⟨0, 0, 960, 540⟩ rfl (by norm_num [cfg0]) (by norm_num [cfg0])).2.2

/-- C2: a commit (plain Enter, or blur) writes the current draft to the
external store exactly once and returns the session to idle; and in the
scenario starting from stored content "A", editing the draft to "AB" and
then receiving blur followed by plain Enter, the stored content ends as
"AB" with exactly one store write (the Enter after blur hits an unmounted
textarea and is never delivered). -/
theorem commit_writes_once (cfg : Config) (content : String)
    (s : ComponentState) (hm : s.mounted = true) (he : s.isEditing = true) :
    step cfg content s .blur
      = ({ s with isEditing := false },
         [.updateTextElement cfg.trackId cfg.elementId s.editContent])
    ∧ step cfg content s (.keyEnter false)
      = ({ s with isEditing := false },
         [.updateTextElement cfg.trackId cfg.elementId s.editContent])
    ∧ (sysRun cfg0 ⟨"A", initState "A"⟩
        [.doubleClick, .textChange "AB", .blur, .keyEnter false]).1.store = "AB"
    ∧ storeWrites (sysRun cfg0 ⟨"A", initState "A"⟩
        [.doubleClick, .textChange "AB", .blur, .keyEnter false]).2 = 1
    ∧ (sysRun cfg0 ⟨"A", initState "A"⟩
        [.doubleClick, .textChange "AB", .blur,
         .keyEnter false]).1.comp.isEditing = false := by
  refine ⟨?_, ?_, by decide, by decide, by decide⟩
  · simp [step, hm, he, handleTextSave]
  · simp [step, hm, he, handleTextSave]

/-- Witness for `commit_writes_once`: blur in a concrete editing state
writes the draft "AB" once and leaves editing. -/
theorem commit_writes_once_witness :
    step cfg0 "A" editStateAB .blur
      = ({ editStateAB with isEditing := false },
         [.updateTextElement "t1" "e1" "AB"]) :=
  (commit_writes_once cfg0 "A" editStateAB rfl rfl).1

/-- C3 counterexample: starting from stored content "A", entering edit and
mutating the draft to "AB", a second double-click leaves the mode editing
but changes the draft back to "A" — the draft is not unchanged as the claim
states. -/
theorem double_click_reseed_counterexample :
    (sysRun cfg0 ⟨"A", initState "A"⟩
      [.doubleClick, .textChange "AB"]).1.comp.editContent = "AB"
    ∧ (sysRun cfg0 ⟨"A", initState "A"⟩
        [.doubleClick, .textChange "AB", .doubleClick]).1.comp.isEditing = true
    ∧ (sysRun cfg0 ⟨"A", initState "A"⟩
        [.doubleClick, .textChange "AB", .doubleClick]).1.comp.editContent = "A"
    ∧ ("A" : String) ≠ "AB" := by
  refine ⟨by decide, by decide, by decide, by decide⟩

/-- C3 (amended): a double-click received while already editing keeps the
mode editing and emits no external call, but re-seeds `draftContent` from
the stored content; hence the draft is unchanged exactly when it already
equals the stored content. -/
theorem double_click_while_editing_reseeds (cfg : Config) (content : String)
    (s : ComponentState) (hm : s.mounted = true) (he : s.isEditing = true) :
    step cfg content s .doubleClick
      = ({ s with isEditing := true, editContent := content }, [])
    ∧ ((step cfg content s .doubleClick).1.editContent = s.editContent
        ↔ content = s.editContent) := by
  constructor
  · simp [step, hm]
  · simp [step, hm]

/-- Witness for `double_click_while_editing_reseeds` at a concrete editing
state with draft "AB" over stored content "A". -/
theorem double_click_while_editing_reseeds_witness :
    step cfg0 "A" editStateAB .doubleClick
      = ({ editStateAB with isEditing := true, editContent := "A" }, []) :=
  (double_click_while_editing_reseeds cfg0 "A" editStateAB rfl rfl).1

/-- C7: Escape while editing discards the draft (restoring the stored
content for display), returns the session to idle, and performs no store
write; in the scenario from stored content "A" with draft "AB", cancelling
leaves the stored content "A" with zero writes. -/
theorem escape_cancel_no_write (cfg : Config) (content : String)
    (s : ComponentState) (hm : s.mounted = true) (he : s.isEditing = true) :
    step cfg content s .keyEscape
      = ({ s with editContent := content, isEditing := false }, [])
    ∧ (sysRun cfg0 ⟨"A", initState "A"⟩
        [.doubleClick, .textChange "AB", .keyEscape]).1.store = "A"
    ∧ storeWrites (sysRun cfg0 ⟨"A", initState "A"⟩
        [.doubleClick, .textChange "AB", .keyEscape]).2 = 0
    ∧ (sysRun cfg0 ⟨"A", initState "A"⟩
        [.doubleClick, .textChange "AB", .keyEscape]).1.comp.isEditing
          = false := by
  refine ⟨?_, by decide, by decide, by decide⟩
  simp [step, hm, he]

/-- Witness for `escape_cancel_no_write` at a concrete editing state. -/
theorem escape_cancel_no_write_witness :
    step cfg0 "A" editStateAB .keyEscape
      = ({ editStateAB with editContent := "A", isEditing := false }, []) :=
  (escape_cancel_no_write cfg0 "A" editStateAB rfl rfl).1

/-- C8: Enter with the Shift (newline) modifier held inserts a literal
newline into the draft and the session stays in editing with no store
write; a subsequent plain Enter commits the draft including the newline —
in the scenario from stored content "A", Shift+Enter then typing "B" then
plain Enter commits exactly "A\nB" with one store write. -/
theorem shift_enter_inserts_newline (cfg : Config) (content : String)
    (s : ComponentState) (hm : s.mounted = true) (he : s.isEditing = true) :
    step cfg content s (.keyEnter true)
      = ({ s with editContent := s.editContent ++ "\n" }, [])
    ∧ (step cfg content s (.keyEnter true)).1.isEditing = true
    ∧ (sysRun cfg0 ⟨"A", initState "A"⟩
        [.doubleClick, .keyEnter true, .textChange "A\nB",
         .keyEnter false]).1.store = "A\nB"
    ∧ storeWrites (sysRun cfg0 ⟨"A", initState "A"⟩
        [.doubleClick, .keyEnter true, .textChange "A\nB",
         .keyEnter false]).2 = 1 := by
  refine ⟨?_, ?_, by decide, by decide⟩
  · simp [step, hm, he]
  · simp [step, hm, he]

/-- Witness for `shift_enter_inserts_newline` at a concrete editing state:
the draft "AB" becomes "AB\n" and no write occurs. -/
theorem shift_enter_inserts_newline_witness :
    step cfg0 "A" editStateAB (.keyEnter true)
      = ({ editStateAB with editContent := "AB\n" }, []) :=
  (shift_enter_inserts_newline cfg0 "A" editStateAB rfl rfl).1

/-- C9: a pointer-down received while the edit session is in editing mode
never starts a drag: the state (grab offset, dragging flag, installed
listeners) is exactly unchanged and no effect is emitted. -/
theorem editing_suppresses_drag (cfg : Config) (content : String)
    (s : ComponentState) (pointer : Vec2) (elementRect : Option Rect)
    (he : s.isEditing = true) :
    step cfg content s (.mouseDown pointer elementRect) = (s, []) := by
  simp [step, he]

/-- Witness for `editing_suppresses_drag`: a concrete pointer-down in a
concrete editing state is a complete no-op. -/
theorem editing_suppresses_drag_witness :
    step cfg0 "A" editStateAB (.mouseDown ⟨5, 5⟩ (some ⟨0, 0, 10, 10⟩))
      = (editStateAB, []) :=
  editing_suppresses_drag cfg0 "A" editStateAB ⟨5, 5⟩
    (some ⟨0, 0, 10, 10⟩) rfl

/-- C10: a pointer-down while not editing whose element rectangle is
unavailable is a complete no-op — no offset stored, no session activated,
no listeners installed, no effect emitted — and a subsequent move signal
from that gesture produces no position update. -/
theorem mousedown_missing_rect_noop (cfg : Config) (content : String)
    (s : ComponentState) (pointer : Vec2) (he : s.isEditing = false) :
    step cfg content s (.mouseDown pointer none) = (s, [])
    ∧ (sysRun cfg0 ⟨"A", initState "A"⟩
        [.mouseDown ⟨5, 5⟩ none,
         .mouseMove ⟨7, 7⟩ (some ⟨0, 0, 960, 540⟩)]).2 = [] := by
  refine ⟨?_, by decide⟩
  simp [step, he]

/-- Witness for `mousedown_missing_rect_noop` at the initial state. -/
theorem mousedown_missing_rect_noop_witness :
    step cfg0 "A" (initState "A") (.mouseDown ⟨5, 5⟩ none)
      = (initState "A", []) :=
  (mousedown_missing_rect_noop cfg0 "A" (initState "A") ⟨5, 5⟩ rfl).1

/-- C4: on the pointer-release path the document listeners are removed and a
further move signal delivers nothing; but on the teardown path the source
removes nothing, so after unmounting mid-drag a further move signal still
calls `onPositionUpdate` — the second half of this theorem exhibits the
leak at a concrete input. -/
theorem release_removes_listeners_but_teardown_leaks :
    (sysRun cfg0 ⟨"A", initState "A"⟩
      [.mouseDown ⟨5, 5⟩ (some ⟨0, 0, 10, 10⟩), .mouseUp,
       .mouseMove ⟨7, 7⟩ (some ⟨0, 0, 960, 540⟩)]).2 = []
    ∧ (sysRun cfg0 ⟨"A", initState "A"⟩
        [.mouseDown ⟨5, 5⟩ (some ⟨0, 0, 10, 10⟩), .mouseUp,
         .mouseMove ⟨7, 7⟩ (some ⟨0, 0, 960, 540⟩)]).1.comp.docListeners = []
    ∧ posUpdates (sysRun cfg0 ⟨"A", initState "A"⟩
        [.mouseDown ⟨5, 5⟩ (some ⟨0, 0, 10, 10⟩), .unmount,
         .mouseMove ⟨7, 7⟩ (some ⟨0, 0, 960, 540⟩)]).2 = 1
    ∧ (sysRun cfg0 ⟨"A", initState "A"⟩
        [.mouseDown ⟨5, 5⟩ (some ⟨0, 0, 10, 10⟩),
         .unmount]).1.comp.mounted = false := by
  refine ⟨by decide, by decide, ?_, by decide⟩
  simp [sysRun, sysStep, step, initState, cfg0, posUpdates, handleMouseMove,
    applyEffect]

/-- The animation busy-guard invariant: at most one live playback, and none
when the `isAnimating` flag is clear. -/
def animInv (s : ComponentState) : Prop :=
  s.playbacks.length ≤ 1 ∧ (s.isAnimating = false → s.playbacks = [])

/-- While an animation is running, every event except the timeline's
completion leaves the `isAnimating` flag set. -/
lemma isAnimating_persists (cfg : Config) (content : String)
    (s : ComponentState) (ha : s.isAnimating = true) :
    ∀ e : Event, e ≠ .animationComplete →
      (step cfg content s e).1.isAnimating = true := by
  intro e hne
  cases e with
  | doubleClick => simp only [step]; split_ifs <;> exact ha
  | mouseDown pointer elementRect =>
      simp only [step]; split_ifs
      · exact ha
      · cases elementRect with
        | none => exact ha
        | some r => exact ha
  | mouseMove pointer previewRect => exact ha
  | mouseUp => simp only [step]; split_ifs <;> exact ha
  | textChange v => simp only [step]; split_ifs <;> exact ha
  | keyEnter shift =>
      simp only [step, handleTextSave]; split_ifs <;> exact ha
  | keyEscape => simp only [step]; split_ifs <;> exact ha
  | blur => simp only [step, handleTextSave]; split_ifs <;> exact ha
  | triggerAnimation a => simp [step, ha]
  | animationComplete => exact absurd rfl hne
  | unmount => exact ha

/-- `animInv` is preserved by every component step. -/
lemma animInv_step (cfg : Config) (content : String) (s : ComponentState)
    (e : Event) (h : animInv s) : animInv (step cfg content s e).1 := by
  obtain ⟨h1, h2⟩ := h
  cases e with
  | doubleClick => simp only [step]; split_ifs <;> exact ⟨h1, h2⟩
  | mouseDown pointer elementRect =>
      simp only [step]; split_ifs
      · exact ⟨h1, h2⟩
      · cases elementRect with
        | none => exact ⟨h1, h2⟩
        | some r => exact ⟨h1, h2⟩
  | mouseMove pointer previewRect => exact ⟨h1, h2⟩
  | mouseUp => simp only [step]; split_ifs <;> exact ⟨h1, h2⟩
  | textChange v => simp only [step]; split_ifs <;> exact ⟨h1, h2⟩
  | keyEnter shift =>
      simp only [step, handleTextSave]; split_ifs <;> exact ⟨h1, h2⟩
  | keyEscape => simp only [step]; split_ifs <;> exact ⟨h1, h2⟩
  | blur => simp only [step, handleTextSave]; split_ifs <;> exact ⟨h1, h2⟩
  | triggerAnimation a =>
      simp only [step]
      split_ifs with hcond
      · exact ⟨h1, h2⟩
      · simp only [Bool.or_eq_true, Bool.not_eq_true', not_or] at hcond
        have ha : s.isAnimating = false := by
          cases hsa : s.isAnimating
          · rfl
          · exact absurd hsa hcond.2
        rcases hbt : buildTimeline a content with ⟨spans, ops⟩
        constructor
        · simp [hbt, h2 ha]
        · intro hfalse
          simp [hbt] at hfalse
  | animationComplete =>
      simp only [step]
      split_ifs
      · exact ⟨h1, h2⟩
      · exact ⟨by simp, fun _ => rfl⟩
  | unmount => exact ⟨h1, h2⟩

/-- `animInv` holds after any run from a freshly mounted component. -/
lemma animInv_sysRun (cfg : Config) (sys : SysState) (events : List Event)
    (h : animInv sys.comp) : animInv (sysRun cfg sys events).1.comp := by
  induction events generalizing sys with
  | nil => exact h
  | cons e es ih =>
      simpa [sysRun, sysStep] using
        ih _ (animInv_step cfg sys.store sys.comp e h)

/-- C5: triggering an animation while one is running is a silent no-op
(state and effects exactly unchanged); when free, the `running` flag is set
true together with the construction of the sequence; no event other than
sequence completion ever clears the flag; and along every event trace from
a fresh component at most one playback is live at a time. -/
theorem animation_busy_guard (cfg : Config) (content : String)
    (s : ComponentState) (animation : String) (events : List Event) :
    (s.isAnimating = true →
      step cfg content s (.triggerAnimation animation) = (s, []))
    ∧ (s.mounted = true → s.isEditing = false → s.isAnimating = false →
        (step cfg content s (.triggerAnimation animation)).1.isAnimating = true
        ∧ (step cfg content s (.triggerAnimation animation)).1.playbacks
            = s.playbacks ++ [⟨animation, (buildTimeline animation content).1,
                (buildTimeline animation content).2⟩])
    ∧ (s.isAnimating = true → ∀ e : Event, e ≠ .animationComplete →
        (step cfg content s e).1.isAnimating = true)
    ∧ (sysRun cfg ⟨content, initState content⟩ events).1.comp.playbacks.length
        ≤ 1 := by
  refine ⟨?_, ?_, ?_, ?_⟩
  · intro ha
    simp [step, ha]
  · intro hm he ha
    constructor <;> simp [step, hm, he, ha]
  · intro ha
    exact isAnimating_persists cfg content s ha
  · exact (animInv_sysRun cfg ⟨content, initState content⟩ events
      ⟨by simp [initState], by simp [initState]⟩).1

/-- Witness for `animation_busy_guard`: in a concrete busy state a second
trigger is exactly a no-op, and a concrete trigger in the fresh state sets
the flag with the sequence. -/
theorem animation_busy_guard_witness :
    step cfg0 "A" busyState0 (.triggerAnimation "slideIn") = (busyState0, [])
    ∧ (step cfg0 "A" (initState "A")
        (.triggerAnimation "fadeIn")).1.isAnimating = true := by
  constructor
  · exact (animation_busy_guard cfg0 "A" busyState0 "slideIn" []).1 rfl
  · exact ((animation_busy_guard cfg0 "A" (initState "A") "fadeIn" []).2.1
      rfl rfl rfl).1

/-- `typewriterOps` yields one call per character. -/
lemma typewriterOps_length (cs : List Char) : ∀ k : ℕ,
    (typewriterOps k cs).length = cs.length := by
  induction cs with
  | nil => intro k; rfl
  | cons c cs ih => intro k; simp [typewriterOps, ih (k + 1)]

/-- The i-th typewriter call reveals the i-th span at offset
`(k + i) × 0.05` seconds. -/
lemma typewriterOps_get (cs : List Char) : ∀ (k i : ℕ), i < cs.length →
    (typewriterOps k cs)[i]?
      = some (.toAt (.span (k + i)) twVars
          (some (((k + i : ℕ) : ℚ) * (1/20)))) := by
  induction cs with
  | nil => intro k i h; simp at h
  | cons c cs ih =>
      intro k i h
      cases i with
      | zero => simp [typewriterOps]
      | succ n =>
          have hn : n < cs.length := Nat.lt_of_succ_lt_succ h
          have hkn : k + 1 + n = k + (n + 1) := by omega
          simp only [typewriterOps, List.getElem?_cons_succ]
          rw [ih (k + 1) n hn, hkn]

/-- Total duration of the typewriter calls starting at index `k`:
`(k + N) × 0.05` seconds for N ≥ 1 characters, 0 for none. -/
lemma absSeqDuration_typewriterOps (cs : List Char) : ∀ k : ℕ,
    absSeqDuration (typewriterOps k cs)
      = if cs.length = 0 then 0 else ((k + cs.length : ℕ) : ℚ) * (1/20) := by
  induction cs with
  | nil => intro k; rfl
  | cons c cs ih =>
      intro k
      simp only [typewriterOps, absSeqDuration, List.foldr_cons]
      have hrest := ih (k + 1)
      simp only [absSeqDuration] at hrest
      rw [hrest]
      by_cases h0 : cs.length = 0
      · rw [if_pos h0, if_neg (by simp)]
        simp only [h0, opEnd, twVars, Option.getD_some, List.length_cons]
        rw [max_eq_left (by positivity)]
        push_cast
        ring
      · rw [if_neg h0, if_neg (by simp)]
        have hle : ((k : ℚ)) * (1/20) + (1/20)
            ≤ ((k + 1 + cs.length : ℕ) : ℚ) * (1/20) := by
          have : (0 : ℚ) ≤ (cs.length : ℚ) := Nat.cast_nonneg _
          push_cast
          linarith
        simp only [opEnd, twVars, Option.getD_some, List.length_cons]
        rw [max_eq_right hle]
        push_cast
        ring

/-- C6: the typewriter preset on content of length N produces exactly N
reveal units, one per character in original order, each starting at opacity
0; the i-th reveal is a 0.05-second opacity tween of span i starting at
offset `i × 0.05` seconds; the total sequence duration is
`(N − 1) × 0.05 + 0.05` seconds; and a free trigger installs exactly this
sequence as the live playback. -/
theorem typewriter_decomposition (content : String) (i : ℕ) (cfg : Config)
    (s : ComponentState) :
    (buildTimeline "typewriter" content).1.length = content.length
    ∧ (buildTimeline "typewriter" content).2.length = content.length
    ∧ (buildTimeline "typewriter" content).1[i]?
        = (content.data[i]?).map (fun c => ⟨c, 0⟩)
    ∧ (i < content.length →
        (buildTimeline "typewriter" content).2[i]?
          = some (.toAt (.span i) twVars (some ((i : ℚ) * (1/20)))))
    ∧ absSeqDuration (buildTimeline "typewriter" content).2
        = ((content.length : ℚ) - 1) * (1/20) + 1/20
    ∧ (s.mounted = true → s.isEditing = false → s.isAnimating = false →
        (step cfg content s (.triggerAnimation "typewriter")).1.playbacks
          = s.playbacks ++ [⟨"typewriter",
              (buildTimeline "typewriter" content).1,
              (buildTimeline "typewriter" content).2⟩]) := by
  have hbt : buildTimeline "typewriter" content
      = (content.data.map (fun c => ⟨c, 0⟩), typewriterOps 0 content.data) :=
    rfl
  have hlen : content.length = content.data.length := rfl
  refine ⟨?_, ?_, ?_, ?_, ?_, ?_⟩
  · rw [hbt, hlen]
    exact List.length_map _ _
  · rw [hbt, hlen]
    exact typewriterOps_length content.data 0
  · rw [hbt]
    exact List.getElem?_map _ _ _
  · intro hi
    rw [hlen] at hi
    have := typewriterOps_get content.data 0 i hi
    simpa [hbt] using this
  · rw [hbt]
    simp only
    rw [absSeqDuration_typewriterOps content.data 0]
    by_cases h0 : content.data.length = 0
    · rw [if_pos h0, hlen, h0]
      norm_num
    · rw [if_neg h0, hlen]
      push_cast
      ring
  · intro hm he ha
    simp [step, hm, he, ha]

/-- Witness for `typewriter_decomposition` on content "ab" at index 1: the
second reveal targets span 1 at offset 0.05 s, and a free trigger installs
the two-unit sequence. -/
theorem typewriter_decomposition_witness :
    (buildTimeline "typewriter" "ab").2[1]?
      = some (.toAt (.span 1) twVars (some ((1 : ℚ) * (1/20))))
    ∧ (step cfg0 "ab" (initState "ab")
        (.triggerAnimation "typewriter")).1.playbacks
        = [⟨"typewriter", (buildTimeline "typewriter" "ab").1,
            (buildTimeline "typewriter" "ab").2⟩] := by
  constructor
  · have h := (typewriter_decomposition "ab" 1 cfg0 (initState "ab")).2.2.2.1
      (by decide)
    simpa using h
  · have h := (typewriter_decomposition "ab" 1 cfg0 (initState "ab")).2.2.2.2.2
      rfl rfl rfl
    simpa [initState] using h

end EditableText
